import Mathlib

/-
  Verification of the libp2p WebTransport transport core.

  Shallow embedding of:
    - src/utils.ts          (isSubset: byte-array subset check)
    - src/index.ts          (parseMultiaddr, dial, authenticateWebTransport,
                             transport configuration)
    - src/muxer.ts          (stream muxer emulator: per-stream half-close
                             state machine, sink contract, inbound admission
                             loop, abort-signal handling)
    - src/listener.ts       (listener-side muxer configuration)
    - src/create-server.ts  (session-ready timeout configuration)

  Byte arrays (JS Uint8Array) are modelled as List Nat.  Stateful JS code is
  modelled by explicit state records and step functions; JS exceptions by
  Except.  External collaborators (multibase decoding, peer-id parsing, the
  noise handshake, the native WebTransport runtime) are modelled as opaque
  inputs or total function parameters, as the spec treats them as external.
-/

namespace WebTransportCore

/-! ## src/utils.ts: isSubset -/

/-- JS Uint8Array modelled as a list of bytes. -/
abbrev Bytes := List Nat

/-- The byte-array comparison inside isSubset (src/utils.ts lines 6-17):
false when lengths differ, otherwise an index-by-index comparison. -/
def byteArrayEqual (byteArray otherByteArray : Bytes) : Bool :=
  if byteArray.length != otherByteArray.length then false
  else (List.range byteArray.length).all fun index =>
    otherByteArray.getD index 0 == byteArray.getD index 0

/-- isSubset from src/utils.ts lines 4-20: filters the elements of
maybeSubset that occur (byte-equal) in set and compares lengths. -/
def isSubset (set maybeSubset : List Bytes) : Bool :=
  let intersection := maybeSubset.filter fun byteArray =>
    (set.find? fun otherByteArray => byteArrayEqual byteArray otherByteArray).isSome
  intersection.length == maybeSubset.length

theorem byteArrayEqual_iff (a b : Bytes) : byteArrayEqual a b = true ↔ a = b := by
  constructor
  · intro h
    by_cases hlen : a.length = b.length
    · refine List.ext_getElem hlen ?_
      intro i h1 h2
      unfold byteArrayEqual at h
      rw [if_neg (by simp [hlen])] at h
      have h3 := List.all_eq_true.mp h i (List.mem_range.mpr h1)
      rw [List.getD_eq_getElem b 0 h2, List.getD_eq_getElem a 0 h1] at h3
      exact (beq_iff_eq.mp h3).symm
    · unfold byteArrayEqual at h
      rw [if_pos (by simpa using hlen)] at h
      exact absurd h (by simp)
  · intro h
    subst h
    unfold byteArrayEqual
    rw [if_neg (by simp)]
    simp

theorem filter_length_eq_iff {α : Type} (p : α → Bool) (l : List α) :
    ((l.filter p).length == l.length) = true ↔ ∀ a ∈ l, p a = true := by
  rw [beq_iff_eq]
  induction l with
  | nil => simp
  | cons x xs ih =>
    cases hx : p x with
    | false =>
      have hlen : (List.filter p (x :: xs)).length = (List.filter p xs).length := by
        simp [List.filter_cons, hx]
      have hle := List.length_filter_le p xs
      constructor
      · intro h
        rw [hlen, List.length_cons] at h
        omega
      · intro h
        exact absurd (h x (List.mem_cons_self x xs)) (by simp [hx])
    | true =>
      have hlen : (List.filter p (x :: xs)).length = (List.filter p xs).length + 1 := by
        simp [List.filter_cons, hx]
      constructor
      · intro h a ha
        rcases List.mem_cons.mp ha with rfl | ha2
        · exact hx
        · refine ih.mp ?_ a ha2
          rw [hlen, List.length_cons] at h
          omega
      · intro h
        have h2 := ih.mpr fun a ha => h a (List.mem_cons_of_mem x ha)
        rw [hlen, List.length_cons]
        omega

/-- The subset check agrees with set-theoretic containment of maybeSubset in
set, under exact byte equality. -/
theorem isSubset_iff (set maybeSubset : List Bytes) :
    isSubset set maybeSubset = true ↔ ∀ b ∈ maybeSubset, b ∈ set := by
  unfold isSubset
  rw [filter_length_eq_iff]
  constructor
  · intro h b hb
    have := h b hb
    rw [Option.isSome_iff_exists] at this
    obtain ⟨x, hx⟩ := this
    have hmem := List.find?_some hx
    have hxmem := List.mem_of_find?_eq_some hx
    rw [(byteArrayEqual_iff b x).mp hmem]
    exact hxmem
  · intro h b hb
    rw [Option.isSome_iff_exists]
    have hmem := h b hb
    have : set.find? (fun o => byteArrayEqual b o) |>.isSome := by
      rw [List.find?_isSome]
      exact ⟨b, hmem, (byteArrayEqual_iff b b).mpr rfl⟩
    rw [Option.isSome_iff_exists] at this
    exact this

/-- C2: isSubset(A, B) is true iff every element of B occurs in A under exact
byte equality (arrays compare equal only with the same length and identical
bytes at every index); isSubset(A, []) holds for every A, and isSubset([], B)
fails for every non-empty B. -/
theorem isSubset_characterization (A B : List Bytes) (hB : B ≠ []) :
    (isSubset A B = true ↔ ∀ b ∈ B, b ∈ A) ∧
    (∀ a b : Bytes, byteArrayEqual a b = true ↔ a = b) ∧
    isSubset A [] = true ∧
    isSubset [] B = false := by
  refine ⟨isSubset_iff A B, byteArrayEqual_iff, by simp [isSubset], ?_⟩
  cases hsub : isSubset [] B
  · rfl
  · exfalso
    have := (isSubset_iff [] B).mp hsub
    cases B with
    | nil => exact hB rfl
    | cons b rest => simpa using this b (List.mem_cons_self b rest)

/-- Witness for isSubset_characterization at the concrete sets used by the
repository's own test cases. -/
theorem isSubset_characterization_witness :
    ([[1, 2, 3]] : List Bytes) ≠ [] ∧
    ((isSubset [[1, 2, 3], [4, 5, 6]] [[1, 2, 3]] = true ↔
        ∀ b ∈ ([[1, 2, 3]] : List Bytes), b ∈ ([[1, 2, 3], [4, 5, 6]] : List Bytes)) ∧
      (∀ a b : Bytes, byteArrayEqual a b = true ↔ a = b) ∧
      isSubset [[1, 2, 3], [4, 5, 6]] [] = true ∧
      isSubset [] [[1, 2, 3]] = false) :=
  ⟨by decide, isSubset_characterization [[1, 2, 3], [4, 5, 6]] [[1, 2, 3]] (by decide)⟩

/-! ## src/index.ts: authenticateWebTransport and the dial error path -/

/-- Outcome of the noise handshake run by authenticateWebTransport: either the
handshake itself threw, or it produced the remote's extensions, whose
webtransportCerthashes field may be absent (code uses
remoteExtensions?.webtransportCerthashes ?? []). -/
abbrev HandshakeOutcome := Except String (Option (List Bytes))

/-- authenticateWebTransport (src/index.ts lines 194-244), after the
handshake: verifies that the certhashes the dialer used (as bytes, the code
maps ch => ch.bytes) are a subset of those the remote reported, throwing
otherwise.  The stream plumbing around the handshake is elided; the certhash
comparison is the modelled state. -/
def authenticateWebTransport (certhashes : List Bytes)
    (remoteCerthashes : Option (List Bytes)) : Except String Bool :=
  if !isSubset (remoteCerthashes.getD []) certhashes then
    Except.error "Our certhashes are not a subset of the remote's reported certhashes"
  else
    Except.ok true

/-- Result of dial: whether wt.close() was called, and the single value or
error surfaced to the caller (the Connection is abstracted to Unit). -/
structure DialOutcome where
  wtClosed : Bool
  result : Except String Unit
deriving Repr

/-- The dial error path (src/index.ts lines 150-192): everything after
wt.ready runs in a try block whose catch closes the session and rethrows the
single error.  authenticateWebTransport runs first; a false return raises
"Failed to authenticate webtransport"; afterwards the upgrade is abstracted
as success. -/
def dial (certhashes : List Bytes) (handshake : HandshakeOutcome) : DialOutcome :=
  let attempt : Except String Unit := do
    let ext ← handshake
    let ok ← authenticateWebTransport certhashes ext
    if !ok then
      Except.error "Failed to authenticate webtransport"
    else
      Except.ok ()
  match attempt with
  | Except.error e => { wtClosed := true, result := Except.error e }
  | Except.ok () => { wtClosed := false, result := Except.ok () }

/-- C1: when the fingerprints extracted from the dialed multiaddr are
non-empty and not contained (byte-equal) in the fingerprints the listener
reported in its handshake extensions, authentication fails, the native
session is closed, and dial rejects with that single error. -/
theorem dial_rejects_mismatched_certhashes
    (certhashes : List Bytes) (remoteReported : List Bytes)
    (_hne : certhashes ≠ [])
    (hnsub : ¬∀ b ∈ certhashes, b ∈ remoteReported) :
    dial certhashes (Except.ok (some remoteReported)) =
      { wtClosed := true,
        result := Except.error
          "Our certhashes are not a subset of the remote's reported certhashes" } := by
  have hsub : isSubset remoteReported certhashes = false := by
    cases h : isSubset remoteReported certhashes
    · rfl
    · exact absurd ((isSubset_iff remoteReported certhashes).mp h) hnsub
  simp [dial, authenticateWebTransport, Option.getD, hsub, Bind.bind, Except.bind]

/-- Witness for dial_rejects_mismatched_certhashes: fingerprint set X = [1,2,3]
against a listener reporting Y = [4,5,6]. -/
theorem dial_rejects_mismatched_certhashes_witness :
    ([[1, 2, 3]] : List Bytes) ≠ [] ∧
    (¬∀ b ∈ ([[1, 2, 3]] : List Bytes), b ∈ ([[4, 5, 6]] : List Bytes)) ∧
    dial [[1, 2, 3]] (Except.ok (some [[4, 5, 6]])) =
      { wtClosed := true,
        result := Except.error
          "Our certhashes are not a subset of the remote's reported certhashes" } :=
  ⟨by decide, by decide,
    dial_rejects_mismatched_certhashes [[1, 2, 3]] [[4, 5, 6]] (by decide) (by decide)⟩

/-- C10: a dial with zero certificate-fingerprint components passes the
post-handshake subset check vacuously: whatever fingerprint list the remote
advertises (including none at all), the subset test succeeds and the
authentication step accepts the session. -/
theorem authenticate_accepts_empty_certhashes (remoteExt : Option (List Bytes)) :
    isSubset (remoteExt.getD []) [] = true ∧
    authenticateWebTransport [] remoteExt = Except.ok true ∧
    dial [] (Except.ok remoteExt) = { wtClosed := false, result := Except.ok () } := by
  have h : isSubset (remoteExt.getD []) [] = true := by simp [isSubset]
  refine ⟨h, ?_, ?_⟩
  · simp [authenticateWebTransport, h]
  · simp [dial, authenticateWebTransport, h, Bind.bind, Except.bind]

/-! ## src/muxer.ts: per-stream half-close state machine
(webtransportBiDiStreamToStream, lines 96-229) -/

/-- Observable state of one Managed Stream: the two closure flags and the
sinkSunk flag of the source, membership in the activeStreams array, counters
for every externally observable effect (removal from the active set, close
timestamp assignment, onStreamEnd notification, native reader.cancel,
writer.close and writer.abort calls), the bytes handed to writer.write, and a
history flag recording that every removal so far happened with both halves
closed. -/
structure StreamState where
  readerClosed : Bool
  writerClosed : Bool
  sinkSunk : Bool
  inActiveSet : Bool
  removals : Nat
  closeStamps : Nat
  endNotifies : Nat
  readerCancels : Nat
  writerCloses : Nat
  writerAborts : Nat
  written : List Bytes
  removedBothClosed : Bool
deriving Repr, DecidableEq

/-- State of a freshly wrapped stream that has been pushed onto
activeStreams: both halves open, sink unused. -/
def initialStreamState : StreamState :=
  { readerClosed := false, writerClosed := false, sinkSunk := false,
    inActiveSet := true, removals := 0, closeStamps := 0, endNotifies := 0,
    readerCancels := 0, writerCloses := 0, writerAborts := 0, written := [],
    removedBothClosed := true }

/-- cleanupStreamFromActiveStreams (muxer.ts lines 101-108): if the stream is
still in activeStreams it is spliced out, its close timestamp is stamped and
onStreamEnd fires; otherwise nothing happens. -/
def cleanupStreamFromActiveStreams (s : StreamState) : StreamState :=
  if s.inActiveSet then
    { s with
      inActiveSet := false, removals := s.removals + 1,
      closeStamps := s.closeStamps + 1, endNotifies := s.endNotifies + 1,
      removedBothClosed := s.removedBothClosed && (s.readerClosed && s.writerClosed) }
  else s

/-- closeRead (muxer.ts lines 159-171): cancel the reader once and mark
read-closed; finalize if the write half is already closed. -/
def closeRead (s : StreamState) : StreamState :=
  let s1 := if !s.readerClosed then
    { s with readerCancels := s.readerCancels + 1, readerClosed := true }
  else s
  if s1.writerClosed then cleanupStreamFromActiveStreams s1 else s1

/-- closeWrite (muxer.ts lines 172-184): mark write-closed and close the
writer once; finalize if the read half is already closed. -/
def closeWrite (s : StreamState) : StreamState :=
  let s1 := if !s.writerClosed then
    { s with writerClosed := true, writerCloses := s.writerCloses + 1 }
  else s
  if s1.readerClosed then cleanupStreamFromActiveStreams s1 else s1

/-- close (muxer.ts lines 153-157): closeRead, closeWrite, then cleanup
unconditionally. -/
def closeStream (s : StreamState) : StreamState :=
  cleanupStreamFromActiveStreams (closeWrite (closeRead s))

/-- abort (muxer.ts lines 144-152): abort the writer if still open, mark
write-closed, run closeRead, force the read-closed flag, then cleanup. -/
def abortStream (s : StreamState) : StreamState :=
  let s1 := if !s.writerClosed then
    { s with writerAborts := s.writerAborts + 1, writerClosed := true }
  else s
  let s2 := closeRead s1
  let s3 := { s2 with readerClosed := true }
  cleanupStreamFromActiveStreams s3

/-- The source generator observing native end-of-stream (muxer.ts lines
196-202): set read-closed and finalize if the write half is closed. -/
def sourceEndOfStream (s : StreamState) : StreamState :=
  let s1 := { s with readerClosed := true }
  if s1.writerClosed then cleanupStreamFromActiveStreams s1 else s1

/-- A chunk accepted by sink: either a Uint8Array, written as one buffer, or
a Uint8ArrayList, whose constituent buffers are written one by one
(muxer.ts lines 213-220). -/
inductive SinkChunk where
  | arr (b : Bytes)
  | arrList (bs : List Bytes)
deriving Repr, DecidableEq

/-- The writer.write calls a chunk produces. -/
def sinkChunkWrites : SinkChunk → List Bytes
  | SinkChunk.arr b => [b]
  | SinkChunk.arrList bs => bs

/-- sink (muxer.ts lines 207-225).  A second call throws before touching
anything.  Otherwise sinkSunk is set, every chunk the input source yields is
written in order, and the finally block runs closeWrite whether the source
completed or threw; a source error is rethrown after that.  The input source
is modelled as the list of chunks it yields followed by whether it then
throws. -/
def sink (s : StreamState) (source : List SinkChunk) (sourceThrows : Bool) :
    StreamState × Except String Unit :=
  if s.sinkSunk then
    (s, Except.error "sink already called on stream")
  else
    let s1 := { s with
      sinkSunk := true,
      written := s.written ++ source.flatMap sinkChunkWrites }
    let s2 := closeWrite s1
    (s2, if sourceThrows then Except.error "source error" else Except.ok ())

/-- The interleavable stream-lifecycle events of claim C3: the four public
close operations, sink completion (whose finally block runs closeWrite), and
the source observing native end-of-stream. -/
inductive StreamEvent where
  | closeReadEv
  | closeWriteEv
  | closeEv
  | abortEv
  | sinkDoneEv
  | sourceEOFEv
deriving Repr, DecidableEq

def streamStep (s : StreamState) : StreamEvent → StreamState
  | StreamEvent.closeReadEv => closeRead s
  | StreamEvent.closeWriteEv => closeWrite s
  | StreamEvent.closeEv => closeStream s
  | StreamEvent.abortEv => abortStream s
  | StreamEvent.sinkDoneEv => closeWrite s
  | StreamEvent.sourceEOFEv => sourceEndOfStream s

/-- Run an interleaving of lifecycle events from the freshly-wrapped state. -/
def runStream (evs : List StreamEvent) : StreamState :=
  evs.foldl streamStep initialStreamState

/-- Inductive invariant tying the bookkeeping counters to the two closure
flags. -/
def StreamInv (s : StreamState) : Prop :=
  s.inActiveSet = !(s.readerClosed && s.writerClosed) ∧
  s.removals = (if s.readerClosed && s.writerClosed then 1 else 0) ∧
  s.closeStamps = s.removals ∧
  s.endNotifies = s.removals ∧
  s.removedBothClosed = true

theorem streamStep_inv (s : StreamState) (e : StreamEvent) (h : StreamInv s) :
    StreamInv (streamStep s e) := by
  obtain ⟨h1, h2, h3, h4, h5⟩ := h
  cases e <;>
    cases hr : s.readerClosed <;> cases hw : s.writerClosed <;>
      simp_all [streamStep, closeRead, closeWrite, closeStream, abortStream,
        sourceEndOfStream, cleanupStreamFromActiveStreams, StreamInv]

theorem foldl_streamStep_inv (evs : List StreamEvent) (s : StreamState)
    (h : StreamInv s) : StreamInv (evs.foldl streamStep s) := by
  induction evs generalizing s with
  | nil => exact h
  | cons e rest ih => exact ih (streamStep s e) (streamStep_inv s e h)

theorem runStream_inv (evs : List StreamEvent) : StreamInv (runStream evs) :=
  foldl_streamStep_inv evs initialStreamState
    (by simp [StreamInv, initialStreamState])

/-- C3: over every interleaving of closeRead, closeWrite, close, abort, sink
completion and source end-of-stream, the stream is removed from the active
set at most once, every removal happens with both closure flags set, removal
happens exactly once precisely when the interleaving has closed both halves,
and the close timestamp and the onStreamEnd notification fire exactly as
often as the removal. -/
theorem stream_finalized_exactly_once (evs : List StreamEvent) :
    (runStream evs).removals ≤ 1 ∧
    (runStream evs).removedBothClosed = true ∧
    (runStream evs).closeStamps = (runStream evs).removals ∧
    (runStream evs).endNotifies = (runStream evs).removals ∧
    ((runStream evs).removals = 1 ↔
      (runStream evs).readerClosed = true ∧ (runStream evs).writerClosed = true) := by
  obtain ⟨h1, h2, h3, h4, h5⟩ := runStream_inv evs
  refine ⟨?_, h5, h3, h4, ?_⟩
  · rw [h2]
    split <;> omega
  · rw [h2]
    cases hr : (runStream evs).readerClosed <;>
      cases hw : (runStream evs).writerClosed <;> simp

/-- C6: closeRead is idempotent and closeWrite is idempotent on the entire
observable stream state: the second call performs no further native cancel or
close, no second finalization, and no state change at all. -/
theorem close_halves_idempotent (s : StreamState) :
    closeRead (closeRead s) = closeRead s ∧
    closeWrite (closeWrite s) = closeWrite s := by
  constructor <;>
    cases hr : s.readerClosed <;> cases hw : s.writerClosed <;>
      cases ha : s.inActiveSet <;>
        simp [closeRead, closeWrite, cleanupStreamFromActiveStreams, hr, hw, ha]

/-- C5: the first sink call on a stream (sinkSunk still false) consumes its
source, writes every chunk in order, and closes the write half whether the
source completed or threw; a sink call on a stream whose sink already ran
(sinkSunk true) fails with the programming error and changes nothing. -/
theorem sink_contract (s t : StreamState) (source tsource : List SinkChunk)
    (sourceThrows tThrows : Bool)
    (hs : s.sinkSunk = false) (ht : t.sinkSunk = true) :
    ((sink s source sourceThrows).1.written =
        s.written ++ source.flatMap sinkChunkWrites ∧
      (sink s source sourceThrows).1.writerClosed = true ∧
      (sink s source sourceThrows).1.sinkSunk = true ∧
      (sink s source sourceThrows).2 =
        (if sourceThrows then Except.error "source error" else Except.ok ())) ∧
    sink t tsource tThrows = (t, Except.error "sink already called on stream") := by
  constructor
  · have hrun : sink s source sourceThrows =
        (closeWrite { s with
          sinkSunk := true,
          written := s.written ++ source.flatMap sinkChunkWrites },
         if sourceThrows then Except.error "source error" else Except.ok ()) := by
      rw [sink, if_neg (by simp [hs])]
    rw [hrun]
    refine ⟨?_, ?_, ?_, rfl⟩ <;>
      cases hr : s.readerClosed <;> cases hw : s.writerClosed <;>
        cases ha : s.inActiveSet <;>
          simp [closeWrite, cleanupStreamFromActiveStreams, hr, hw, ha]
  · rw [sink, if_pos ht]

/-- Witness for sink_contract: a fresh stream sinks two chunks (one plain
array, one array-list) and ends write-closed; a stream with sinkSunk set is
rejected untouched. -/
theorem sink_contract_witness :
    initialStreamState.sinkSunk = false ∧
    ({ initialStreamState with sinkSunk := true }).sinkSunk = true ∧
    ((sink initialStreamState [SinkChunk.arr [0], SinkChunk.arrList [[1, 2], [3]]] false).1.written =
        initialStreamState.written ++
          ([SinkChunk.arr [0], SinkChunk.arrList [[1, 2], [3]]].flatMap sinkChunkWrites) ∧
      (sink initialStreamState [SinkChunk.arr [0], SinkChunk.arrList [[1, 2], [3]]] false).1.writerClosed = true ∧
      (sink initialStreamState [SinkChunk.arr [0], SinkChunk.arrList [[1, 2], [3]]] false).1.sinkSunk = true ∧
      (sink initialStreamState [SinkChunk.arr [0], SinkChunk.arrList [[1, 2], [3]]] false).2 =
        (if false then Except.error "source error" else Except.ok ())) ∧
    sink { initialStreamState with sinkSunk := true } [] true =
      ({ initialStreamState with sinkSunk := true },
        Except.error "sink already called on stream") :=
  ⟨rfl, rfl,
    sink_contract initialStreamState { initialStreamState with sinkSunk := true }
      [SinkChunk.arr [0], SinkChunk.arrList [[1, 2], [3]]] [] false true rfl rfl⟩

/-! ## src/muxer.ts: inbound admission loop and muxer creation
(createStreamMuxer, lines 22-92) -/

/-- One read from the incoming-bidirectional-streams reader: the reader is
done, the value is null, or a native stream arrived. -/
inductive InboundArrival where
  | readerDone
  | nullValue
  | nativeStream
deriving Repr, DecidableEq

/-- State of one muxer instance: the activeStreams array (stream ids), the
session-scoped streamIDCounter, the streams surfaced through
onIncomingStream, and the native close/cancel calls issued to rejected
inbound streams. -/
structure MuxerState where
  activeStreams : List String
  streamIDCounter : Nat
  surfaced : List String
  rejectedWritableCloses : Nat
  rejectedReadableCancels : Nat
deriving Repr, DecidableEq

def initialMuxerState : MuxerState :=
  { activeStreams := [], streamIDCounter := 0, surfaced := [],
    rejectedWritableCloses := 0, rejectedReadableCancels := 0 }

/-- The admission decision for one arriving native stream (muxer.ts lines
44-56): at or above the maxInboundStreams ceiling the native stream's
writable is closed and readable cancelled without wrapping or surfacing;
below it the stream is wrapped with the next id, pushed onto activeStreams
and handed to onIncomingStream. -/
def admitInboundStream (maxInboundStreams : Nat) (m : MuxerState) : MuxerState :=
  if m.activeStreams.length ≥ maxInboundStreams then
    { m with
      rejectedWritableCloses := m.rejectedWritableCloses + 1,
      rejectedReadableCancels := m.rejectedReadableCancels + 1 }
  else
    let id := toString m.streamIDCounter
    { m with
      activeStreams := m.activeStreams ++ [id],
      streamIDCounter := m.streamIDCounter + 1,
      surfaced := m.surfaced ++ [id] }

/-- The background inbound loop (muxer.ts lines 27-58): read arrivals one at
a time, stopping on done or a null value, admitting each native stream. -/
def inboundLoop (maxInboundStreams : Nat) (m : MuxerState) :
    List InboundArrival → MuxerState
  | [] => m
  | InboundArrival.readerDone :: _ => m
  | InboundArrival.nullValue :: _ => m
  | InboundArrival.nativeStream :: rest =>
      inboundLoop maxInboundStreams (admitInboundStream maxInboundStreams m) rest

theorem inboundLoop_replicate_length (n : Nat) (k : Nat) (m : MuxerState)
    (hm : m.activeStreams.length ≤ n) :
    (inboundLoop n m (List.replicate k InboundArrival.nativeStream)).activeStreams.length =
      min (m.activeStreams.length + k) n ∧
    (inboundLoop n m (List.replicate k InboundArrival.nativeStream)).surfaced.length =
      m.surfaced.length + (min (m.activeStreams.length + k) n - m.activeStreams.length) := by
  induction k generalizing m with
  | zero => simp [inboundLoop, List.replicate]; omega
  | succ k ih =>
    rw [List.replicate_succ, inboundLoop]
    by_cases hfull : m.activeStreams.length ≥ n
    · have hn : m.activeStreams.length = n := le_antisymm hm hfull
      have hstep : admitInboundStream n m =
          { m with
            rejectedWritableCloses := m.rejectedWritableCloses + 1,
            rejectedReadableCancels := m.rejectedReadableCancels + 1 } := by
        rw [admitInboundStream, if_pos hfull]
      rw [hstep]
      obtain ⟨h1, h2⟩ := ih { m with
        rejectedWritableCloses := m.rejectedWritableCloses + 1,
        rejectedReadableCancels := m.rejectedReadableCancels + 1 } (by simpa using hm)
      constructor
      · rw [h1]; simp; omega
      · rw [h2]; simp; omega
    · push_neg at hfull
      have hstep : admitInboundStream n m =
          { m with
            activeStreams := m.activeStreams ++ [toString m.streamIDCounter],
            streamIDCounter := m.streamIDCounter + 1,
            surfaced := m.surfaced ++ [toString m.streamIDCounter] } := by
        rw [admitInboundStream, if_neg (by omega)]
      rw [hstep]
      obtain ⟨h1, h2⟩ := ih { m with
        activeStreams := m.activeStreams ++ [toString m.streamIDCounter],
        streamIDCounter := m.streamIDCounter + 1,
        surfaced := m.surfaced ++ [toString m.streamIDCounter] }
        (by simp; omega)
      constructor
      · rw [h1]; simp; omega
      · rw [h2]; simp; omega

/-- C4: an arriving native stream is wrapped, appended to activeStreams and
surfaced exactly when the current active count (inbound plus outbound live
in the same array) is strictly below the maxInboundStreams ceiling; at or
above the ceiling its write side is closed and its read side cancelled and
it is neither appended nor surfaced.  Consequently a run of k arrivals from
an empty muxer surfaces exactly min k N streams and tears down the rest. -/
theorem inbound_admission_control (n k : Nat) (mLow mFull : MuxerState)
    (hlow : mLow.activeStreams.length < n)
    (hfull : n ≤ mFull.activeStreams.length) :
    (admitInboundStream n mLow =
      { mLow with
        activeStreams := mLow.activeStreams ++ [toString mLow.streamIDCounter],
        streamIDCounter := mLow.streamIDCounter + 1,
        surfaced := mLow.surfaced ++ [toString mLow.streamIDCounter] }) ∧
    (admitInboundStream n mFull =
      { mFull with
        rejectedWritableCloses := mFull.rejectedWritableCloses + 1,
        rejectedReadableCancels := mFull.rejectedReadableCancels + 1 }) ∧
    (inboundLoop n initialMuxerState
        (List.replicate k InboundArrival.nativeStream)).activeStreams.length = min k n ∧
    (inboundLoop n initialMuxerState
        (List.replicate k InboundArrival.nativeStream)).surfaced.length = min k n := by
  refine ⟨by rw [admitInboundStream, if_neg (by omega)],
    by rw [admitInboundStream, if_pos (by omega)], ?_, ?_⟩
  · have h := (inboundLoop_replicate_length n k initialMuxerState
      (by simp [initialMuxerState])).1
    simpa [initialMuxerState] using h
  · have h := (inboundLoop_replicate_length n k initialMuxerState
      (by simp [initialMuxerState])).2
    simpa [initialMuxerState] using h

/-- Witness for inbound_admission_control: ceiling 2, three arrivals from the
empty muxer, one muxer below the ceiling and one at it. -/
theorem inbound_admission_control_witness :
    initialMuxerState.activeStreams.length < 2 ∧
    2 ≤ ({ initialMuxerState with activeStreams := ["0", "1"] } : MuxerState).activeStreams.length ∧
    ((admitInboundStream 2 initialMuxerState =
      { initialMuxerState with
        activeStreams := initialMuxerState.activeStreams ++ [toString initialMuxerState.streamIDCounter],
        streamIDCounter := initialMuxerState.streamIDCounter + 1,
        surfaced := initialMuxerState.surfaced ++ [toString initialMuxerState.streamIDCounter] }) ∧
    (admitInboundStream 2 { initialMuxerState with activeStreams := ["0", "1"] } =
      { ({ initialMuxerState with activeStreams := ["0", "1"] } : MuxerState) with
        rejectedWritableCloses :=
          ({ initialMuxerState with activeStreams := ["0", "1"] } : MuxerState).rejectedWritableCloses + 1,
        rejectedReadableCancels :=
          ({ initialMuxerState with activeStreams := ["0", "1"] } : MuxerState).rejectedReadableCancels + 1 }) ∧
    (inboundLoop 2 initialMuxerState
        (List.replicate 3 InboundArrival.nativeStream)).activeStreams.length = min 3 2 ∧
    (inboundLoop 2 initialMuxerState
        (List.replicate 3 InboundArrival.nativeStream)).surfaced.length = min 3 2) :=
  ⟨by decide, by decide,
    inbound_admission_control 2 3 initialMuxerState
      { initialMuxerState with activeStreams := ["0", "1"] } (by decide) (by decide)⟩

/-! ## src/muxer.ts: createStreamMuxer abort-signal handling -/

/-- Result of the synchronous body of createStreamMuxer (muxer.ts lines
22-92): the inbound loop is scheduled as a deferred task before anything
else; the muxer object is then built; last, if the supplied abort signal is
already aborted, wt.close() is called and an AbortError is thrown instead of
returning the muxer.  The deferred loop only starts running after this body
finishes, so when it does start the session is already closed and the
reader immediately reports done. -/
structure CreateMuxerOutcome where
  loopScheduled : Bool
  wtClosed : Bool
  result : Except String Unit
deriving Repr

def createStreamMuxer (signalAborted : Bool) : CreateMuxerOutcome :=
  if signalAborted then
    { loopScheduled := true, wtClosed := true, result := Except.error "AbortError" }
  else
    { loopScheduled := true, wtClosed := false, result := Except.ok () }

/-- C8: an abort signal already triggered at muxer-creation time makes
createStreamMuxer close the native session and fail with AbortError instead
of returning a muxer; the scheduled inbound loop, which on the closed
session immediately reads done, performs no muxer work: it admits, surfaces
and tears down no stream. -/
theorem createStreamMuxer_aborted (signalAborted : Bool) (n : Nat)
    (rest : List InboundArrival) (h : signalAborted = true) :
    (createStreamMuxer signalAborted).wtClosed = true ∧
    (createStreamMuxer signalAborted).result = Except.error "AbortError" ∧
    inboundLoop n initialMuxerState (InboundArrival.readerDone :: rest) =
      initialMuxerState := by
  subst h
  exact ⟨rfl, rfl, rfl⟩

/-- Witness for createStreamMuxer_aborted at a concrete aborted signal. -/
theorem createStreamMuxer_aborted_witness :
    (true = true) ∧
    ((createStreamMuxer true).wtClosed = true ∧
      (createStreamMuxer true).result = Except.error "AbortError" ∧
      inboundLoop 1000 initialMuxerState [InboundArrival.readerDone] =
        initialMuxerState) :=
  ⟨rfl, createStreamMuxer_aborted true 1000 [] rfl⟩

/-! ## Configuration plumbing: src/index.ts constructor (lines 111-117),
src/listener.ts onSession (lines 156-162), src/create-server.ts
constructor -/

/-- The transport constructor: config.maxInboundStreams is the init value
or 1000 (src/index.ts line 115). -/
def transportMaxInboundStreams (initMax : Option Nat) : Nat :=
  initMax.getD 1000

/-- The dial path hands this.config to webtransportMuxer (src/index.ts line
185), so the dial-side muxer ceiling is the configured value. -/
def dialMuxerCeiling (initMax : Option Nat) : Nat :=
  transportMaxInboundStreams initMax

/-- The listener's onSession hands webtransportMuxer the literal
{ maxInboundStreams: 1000 } (src/listener.ts lines 159-161), independent of
the transport configuration. -/
def listenerMuxerCeiling (_initMax : Option Nat) : Nat :=
  1000

/-- DefaultWebTransportServer sets sessionTimeout to 1000 ms in its
constructor (src/create-server.ts). -/
def serverSessionTimeout : Nat :=
  1000

/-- C9 as amended: maxInboundStreams defaults to 1000 and the session-ready
timeout is 1000 ms; the dial-side muxer enforces the configured value, but
the listen-side muxer always uses the fixed ceiling 1000 whatever was
configured. -/
theorem muxer_ceiling_configuration (initMax : Option Nat) :
    transportMaxInboundStreams none = 1000 ∧
    serverSessionTimeout = 1000 ∧
    dialMuxerCeiling initMax = transportMaxInboundStreams initMax ∧
    listenerMuxerCeiling initMax = 1000 :=
  ⟨rfl, rfl, rfl, rfl⟩

/-- Counterexample to C9 as stated: with maxInboundStreams configured to 5,
the listen-side muxer is created with ceiling 1000, not the configured 5, so
not every muxer the transport creates enforces the configured value. -/
theorem listener_muxer_ignores_configured_ceiling :
    transportMaxInboundStreams (some 5) = 5 ∧
    listenerMuxerCeiling (some 5) = 1000 ∧
    listenerMuxerCeiling (some 5) ≠ transportMaxInboundStreams (some 5) := by
  refine ⟨rfl, rfl, by decide⟩

/-! ## src/index.ts: parseMultiaddr (lines 36-91) -/

/-- The multiaddr component kinds the reduce in parseMultiaddr switches on;
any other protocol code falls into the default branch. -/
inductive MaProto where
  | ip4
  | ip6
  | dns4
  | dns6
  | quic
  | webtransport
  | udp
  | certhash
  | p2p
  | other (code : Nat)
deriving Repr, DecidableEq

/-- One string tuple of the multiaddr: protocol plus optional value (the
code reads value ?? '' everywhere). -/
abbrev MaComponent := MaProto × Option String

/-- The accumulator of the reduce in parseMultiaddr. -/
structure ParseState where
  url : String
  certhashes : List Bytes
  seenHost : Bool
  seenPort : Bool
  remotePeer : Option String
deriving Repr, DecidableEq

def initialParseState : ParseState :=
  { url := "https://", certhashes := [], seenHost := false, seenPort := false,
    remotePeer := none }

/-- One iteration of the reduce in parseMultiaddr (src/index.ts lines
41-85), with throws as Except.error.  The external multibase/multihash
decoding of a certhash value and the peer-id parsing are the total
parameters dec and pid. -/
def parseStep (dec : String → Bytes) (pid : String → String)
    (state : ParseState) (c : MaComponent) : Except String ParseState :=
  match c.1 with
  | MaProto.ip4 | MaProto.ip6 | MaProto.dns4 | MaProto.dns6 =>
    if state.seenHost || state.seenPort then
      Except.error "Invalid multiaddr, saw host and already saw the host or port"
    else
      Except.ok { state with url := state.url ++ c.2.getD "", seenHost := true }
  | MaProto.quic | MaProto.webtransport =>
    if !state.seenHost || !state.seenPort then
      Except.error "Invalid multiaddr, Didn't see host and port, but saw quic/webtransport"
    else
      Except.ok state
  | MaProto.udp =>
    if state.seenPort then
      Except.error "Invalid multiaddr, saw port but already saw the port"
    else
      Except.ok { state with url := state.url ++ ":" ++ c.2.getD "", seenPort := true }
  | MaProto.certhash =>
    if !state.seenHost || !state.seenPort then
      Except.error "Invalid multiaddr, saw the certhash before seeing the host and port"
    else
      Except.ok { state with certhashes := state.certhashes ++ [dec (c.2.getD "")] }
  | MaProto.p2p =>
    Except.ok { state with remotePeer := some (pid (c.2.getD "")) }
  | MaProto.other _ =>
    Except.error "unexpected component in multiaddr"

/-- parseMultiaddr (src/index.ts lines 36-91): reduce the string tuples from
the https:// seed and return url, certhashes and remotePeer. -/
def parseMultiaddr (dec : String → Bytes) (pid : String → String)
    (parts : List MaComponent) :
    Except String (String × List Bytes × Option String) :=
  (parts.foldlM (parseStep dec pid) initialParseState).map
    fun s => (s.url, s.certhashes, s.remotePeer)

/-! Spec-side vocabulary for the parsing claim. -/

def isHostComp : MaProto → Bool
  | MaProto.ip4 | MaProto.ip6 | MaProto.dns4 | MaProto.dns6 => true
  | _ => false

def isTransportMarker : MaProto → Bool
  | MaProto.quic | MaProto.webtransport => true
  | _ => false

def isUdpComp : MaProto → Bool
  | MaProto.udp => true
  | _ => false

def isCerthashComp : MaProto → Bool
  | MaProto.certhash => true
  | _ => false

def isP2pComp : MaProto → Bool
  | MaProto.p2p => true
  | _ => false

/-- The recognized component set of the claim. -/
def isRecognized : MaProto → Bool
  | MaProto.other _ => false
  | _ => true

/-- Well-formedness of the components after a prefix that has already seen a
host (sh) or a port (sp): at every decomposition parts = pre ++ c :: post,
the component c is recognized; a host component appears only when no host
and no port has been seen before it; a udp component appears only when no
port has been seen before it; and a quic/webtransport marker or certhash
component appears only after both a host and a port. -/
def GoodFrom (sh sp : Bool) (parts : List MaComponent) : Prop :=
  ∀ pre c post, parts = pre ++ c :: post →
    isRecognized c.1 = true ∧
    (isHostComp c.1 = true →
      sh = false ∧ sp = false ∧
      ∀ d ∈ pre, isHostComp d.1 = false ∧ isUdpComp d.1 = false) ∧
    (isUdpComp c.1 = true →
      sp = false ∧ ∀ d ∈ pre, isUdpComp d.1 = false) ∧
    ((isTransportMarker c.1 = true ∨ isCerthashComp c.1 = true) →
      (sh = true ∨ ∃ d ∈ pre, isHostComp d.1 = true) ∧
      (sp = true ∨ ∃ d ∈ pre, isUdpComp d.1 = true))

/-- Well-formedness of a whole multiaddr component list. -/
def GoodMultiaddr (parts : List MaComponent) : Prop :=
  GoodFrom false false parts

/-- The contribution of one component to the derived https URL. -/
def urlFragment (c : MaComponent) : String :=
  if isHostComp c.1 then c.2.getD ""
  else if isUdpComp c.1 then ":" ++ c.2.getD ""
  else ""

/-- The URL body derived from the whole component list. -/
def specUrl (parts : List MaComponent) : String :=
  parts.foldr (fun c acc => urlFragment c ++ acc) ""

/-- The certhash values of the list, in order of appearance. -/
def certhashValues (parts : List MaComponent) : List String :=
  parts.filterMap fun c => if isCerthashComp c.1 then some (c.2.getD "") else none

/-- The value of the last p2p component, if any (each p2p overwrites the
previous remotePeer). -/
def lastP2pValue : List MaComponent → Option String
  | [] => none
  | c :: rest =>
    match lastP2pValue rest with
    | some v => some v
    | none => if isP2pComp c.1 then some (c.2.getD "") else none

/-- The condition under which one reduce iteration does not throw, given the
seen-host/seen-port flags. -/
def StepOk (sh sp : Bool) (c : MaComponent) : Prop :=
  isRecognized c.1 = true ∧
  (isHostComp c.1 = true → sh = false ∧ sp = false) ∧
  (isUdpComp c.1 = true → sp = false) ∧
  ((isTransportMarker c.1 = true ∨ isCerthashComp c.1 = true) →
    sh = true ∧ sp = true)

theorem parseStep_isOk_iff (dec : String → Bytes) (pid : String → String)
    (s : ParseState) (c : MaComponent) :
    (parseStep dec pid s c).isOk = true ↔ StepOk s.seenHost s.seenPort c := by
  obtain ⟨p, v⟩ := c
  cases p <;>
    cases hh : s.seenHost <;> cases hp : s.seenPort <;>
      simp [parseStep, StepOk, isRecognized, isHostComp, isUdpComp,
        isTransportMarker, isCerthashComp, hh, hp, Except.isOk, Except.toBool]

theorem parseStep_ok_spec (dec : String → Bytes) (pid : String → String)
    (s s' : ParseState) (c : MaComponent)
    (h : parseStep dec pid s c = Except.ok s') :
    s'.seenHost = (s.seenHost || isHostComp c.1) ∧
    s'.seenPort = (s.seenPort || isUdpComp c.1) ∧
    s'.url = s.url ++ urlFragment c ∧
    s'.certhashes = s.certhashes ++
      ((if isCerthashComp c.1 then [c.2.getD ""] else []).map dec) ∧
    s'.remotePeer =
      (if isP2pComp c.1 then some (pid (c.2.getD "")) else s.remotePeer) := by
  obtain ⟨p, v⟩ := c
  cases p <;>
    simp only [parseStep] at h <;>
      first
        | (split at h
           · exact absurd h (by simp)
           · cases Except.ok.inj h
             simp [urlFragment, isHostComp, isUdpComp, isCerthashComp,
               isP2pComp, String.append_assoc])
        | (cases Except.ok.inj h
           simp [urlFragment, isHostComp, isUdpComp, isCerthashComp, isP2pComp])
        | exact absurd h (by simp)

theorem goodFrom_nil (sh sp : Bool) : GoodFrom sh sp [] := by
  intro pre c post h
  exact absurd h (by simp)

theorem goodFrom_cons (sh sp : Bool) (c : MaComponent) (rest : List MaComponent) :
    GoodFrom sh sp (c :: rest) ↔
      StepOk sh sp c ∧
        GoodFrom (sh || isHostComp c.1) (sp || isUdpComp c.1) rest := by
  constructor
  · intro h
    refine ⟨?_, ?_⟩
    · have h0 := h [] c rest rfl
      refine ⟨h0.1, ?_, ?_, ?_⟩
      · intro hh
        exact ⟨(h0.2.1 hh).1, (h0.2.1 hh).2.1⟩
      · intro hh
        exact (h0.2.2.1 hh).1
      · intro hh
        obtain ⟨ha, hb⟩ := h0.2.2.2 hh
        constructor
        · rcases ha with ha | ⟨d, hd, _⟩
          · exact ha
          · exact absurd hd (by simp)
        · rcases hb with hb | ⟨d, hd, _⟩
          · exact hb
          · exact absurd hd (by simp)
    · intro pre d post hrest
      have h1 := h (c :: pre) d post (by rw [hrest]; rfl)
      refine ⟨h1.1, ?_, ?_, ?_⟩
      · intro hh
        obtain ⟨ha, hb, hc⟩ := h1.2.1 hh
        have hcc := hc c (List.mem_cons_self c pre)
        refine ⟨by rw [ha, hcc.1]; rfl, by rw [hb, hcc.2]; rfl, ?_⟩
        intro e he
        exact hc e (List.mem_cons_of_mem c he)
      · intro hh
        obtain ⟨ha, hb⟩ := h1.2.2.1 hh
        have hbc := hb c (List.mem_cons_self c pre)
        refine ⟨by rw [ha, hbc]; rfl, ?_⟩
        intro e he
        exact hb e (List.mem_cons_of_mem c he)
      · intro hh
        obtain ⟨ha, hb⟩ := h1.2.2.2 hh
        constructor
        · rcases ha with ha | ⟨e, he, hhost⟩
          · left
            rw [ha]
            rfl
          · rcases List.mem_cons.mp he with rfl | he2
            · left
              rw [hhost]
              simp
            · right
              exact ⟨e, he2, hhost⟩
        · rcases hb with hb | ⟨e, he, hudp⟩
          · left
            rw [hb]
            rfl
          · rcases List.mem_cons.mp he with rfl | he2
            · left
              rw [hudp]
              simp
            · right
              exact ⟨e, he2, hudp⟩
  · rintro ⟨hstep, hrest⟩ pre d post hdec
    cases pre with
    | nil =>
      simp only [List.nil_append] at hdec
      obtain ⟨rfl, rfl⟩ := List.cons.inj hdec
      refine ⟨hstep.1, ?_, ?_, ?_⟩
      · intro hh
        obtain ⟨a, b⟩ := hstep.2.1 hh
        exact ⟨a, b, by intro e he; exact absurd he (by simp)⟩
      · intro hh
        exact ⟨hstep.2.2.1 hh, by intro e he; exact absurd he (by simp)⟩
      · intro hh
        obtain ⟨a, b⟩ := hstep.2.2.2 hh
        exact ⟨Or.inl a, Or.inl b⟩
    | cons c0 pre2 =>
      simp only [List.cons_append] at hdec
      obtain ⟨rfl, hrest2⟩ := List.cons.inj hdec
      have h1 := hrest pre2 d post hrest2
      refine ⟨h1.1, ?_, ?_, ?_⟩
      · intro hh
        obtain ⟨ha, hb, hc⟩ := h1.2.1 hh
        obtain ⟨hsh, hhc⟩ := Bool.or_eq_false_iff.mp ha
        obtain ⟨hsp, huc⟩ := Bool.or_eq_false_iff.mp hb
        refine ⟨hsh, hsp, ?_⟩
        intro e he
        rcases List.mem_cons.mp he with rfl | he2
        · exact ⟨hhc, huc⟩
        · exact hc e he2
      · intro hh
        obtain ⟨ha, hb⟩ := h1.2.2.1 hh
        obtain ⟨hsp, huc⟩ := Bool.or_eq_false_iff.mp ha
        refine ⟨hsp, ?_⟩
        intro e he
        rcases List.mem_cons.mp he with rfl | he2
        · exact huc
        · exact hb e he2
      · intro hh
        obtain ⟨ha, hb⟩ := h1.2.2.2 hh
        constructor
        · rcases ha with ha | ⟨e, he, hhost⟩
          · rcases Bool.or_eq_true_iff.mp ha with hsh | hhc
            · exact Or.inl hsh
            · exact Or.inr ⟨c, List.mem_cons_self c pre2, hhc⟩
          · exact Or.inr ⟨e, List.mem_cons_of_mem c he, hhost⟩
        · rcases hb with hb | ⟨e, he, hudp⟩
          · rcases Bool.or_eq_true_iff.mp hb with hsp | huc
            · exact Or.inl hsp
            · exact Or.inr ⟨c, List.mem_cons_self c pre2, huc⟩
          · exact Or.inr ⟨e, List.mem_cons_of_mem c he, hudp⟩

theorem foldlM_parseStep_isOk_iff (dec : String → Bytes) (pid : String → String)
    (parts : List MaComponent) : ∀ s : ParseState,
    (List.foldlM (parseStep dec pid) s parts).isOk = true ↔
      GoodFrom s.seenHost s.seenPort parts := by
  induction parts with
  | nil =>
    intro s
    simp only [List.foldlM_nil]
    constructor
    · intro _
      exact goodFrom_nil s.seenHost s.seenPort
    · intro _
      rfl
  | cons c rest ih =>
    intro s
    rw [List.foldlM_cons]
    cases hstep : parseStep dec pid s c with
    | error e =>
      have hbind : (Except.error e >>= fun s2 =>
          List.foldlM (parseStep dec pid) s2 rest) = Except.error e := rfl
      rw [hbind]
      constructor
      · intro hok
        exact absurd hok (by simp [Except.isOk, Except.toBool])
      · intro hgood
        have hcond := ((goodFrom_cons s.seenHost s.seenPort c rest).mp hgood).1
        have hok := (parseStep_isOk_iff dec pid s c).mpr hcond
        rw [hstep] at hok
        exact absurd hok (by simp [Except.isOk, Except.toBool])
    | ok s1 =>
      have hbind : (Except.ok s1 >>= fun s2 =>
          List.foldlM (parseStep dec pid) s2 rest) =
          List.foldlM (parseStep dec pid) s1 rest := rfl
      rw [hbind, ih s1, goodFrom_cons]
      obtain ⟨hsh, hsp, _⟩ := parseStep_ok_spec dec pid s s1 c hstep
      rw [hsh, hsp]
      constructor
      · intro h
        refine ⟨?_, h⟩
        have hok : (parseStep dec pid s c).isOk = true := by
          rw [hstep]
          rfl
        exact (parseStep_isOk_iff dec pid s c).mp hok
      · exact And.right

theorem foldlM_parseStep_ok_value (dec : String → Bytes) (pid : String → String)
    (parts : List MaComponent) : ∀ s s' : ParseState,
    List.foldlM (parseStep dec pid) s parts = Except.ok s' →
    s'.url = s.url ++ specUrl parts ∧
    s'.certhashes = s.certhashes ++ (certhashValues parts).map dec ∧
    s'.remotePeer = (match lastP2pValue parts with
      | some v => some (pid v)
      | none => s.remotePeer) := by
  induction parts with
  | nil =>
    intro s s' h
    simp only [List.foldlM_nil] at h
    cases Except.ok.inj h
    simp [specUrl, certhashValues, lastP2pValue]
  | cons c rest ih =>
    intro s s' h
    rw [List.foldlM_cons] at h
    cases hstep : parseStep dec pid s c with
    | error e =>
      rw [hstep] at h
      exact absurd h (by simp [Bind.bind, Except.bind])
    | ok s1 =>
      rw [hstep] at h
      have hbind : (Except.ok s1 >>= fun s2 =>
          List.foldlM (parseStep dec pid) s2 rest) =
          List.foldlM (parseStep dec pid) s1 rest := rfl
      rw [hbind] at h
      obtain ⟨hurl1, hch1, hrp1⟩ := (parseStep_ok_spec dec pid s s1 c hstep).2.2
      obtain ⟨hurl2, hch2, hrp2⟩ := ih s1 s' h
      refine ⟨?_, ?_, ?_⟩
      · rw [hurl2, hurl1]
        have hfold : specUrl (c :: rest) = urlFragment c ++ specUrl rest := rfl
        rw [hfold, String.append_assoc]
      · rw [hch2, hch1]
        have hfold : certhashValues (c :: rest) =
            (if isCerthashComp c.1 then [c.2.getD ""] else []) ++ certhashValues rest := by
          rw [certhashValues, certhashValues, List.filterMap_cons]
          cases hcc : isCerthashComp c.1 <;> simp [hcc]
        rw [hfold, List.map_append, List.append_assoc]
      · rw [hrp2, hrp1]
        have hfold : lastP2pValue (c :: rest) =
            (match lastP2pValue rest with
              | some v => some v
              | none => if isP2pComp c.1 then some (c.2.getD "") else none) := rfl
        rw [hfold]
        cases hlast : lastP2pValue rest with
        | some v => rfl
        | none =>
          cases hp : isP2pComp c.1 <;> simp [hp]

/-- The pieces going into parseMultiaddr's success value. -/
theorem parseMultiaddr_ok_iff (dec : String → Bytes) (pid : String → String)
    (parts : List MaComponent) :
    ((parseMultiaddr dec pid parts).isOk = true ↔ GoodMultiaddr parts) ∧
    (∀ url chs rp, parseMultiaddr dec pid parts = Except.ok (url, chs, rp) →
      url = "https://" ++ specUrl parts ∧
      chs = (certhashValues parts).map dec ∧
      rp = (lastP2pValue parts).map pid) := by
  constructor
  · rw [GoodMultiaddr]
    have hbase := foldlM_parseStep_isOk_iff dec pid parts initialParseState
    rw [show initialParseState.seenHost = false from rfl,
      show initialParseState.seenPort = false from rfl] at hbase
    rw [parseMultiaddr]
    cases hfold : List.foldlM (parseStep dec pid) initialParseState parts with
    | error e =>
      rw [hfold] at hbase
      simpa [Except.map, Except.isOk, Except.toBool] using hbase
    | ok s' =>
      rw [hfold] at hbase
      simpa [Except.map, Except.isOk, Except.toBool] using hbase
  · intro url chs rp h
    rw [parseMultiaddr] at h
    cases hfold : List.foldlM (parseStep dec pid) initialParseState parts with
    | error e =>
      rw [hfold] at h
      exact absurd h (by simp [Except.map])
    | ok s' =>
      rw [hfold] at h
      simp only [Except.map] at h
      obtain ⟨hu, hcr⟩ := Prod.mk.inj (Except.ok.inj h)
      obtain ⟨hc, hr⟩ := Prod.mk.inj hcr
      obtain ⟨hurl, hch, hrp⟩ := foldlM_parseStep_ok_value dec pid parts
        initialParseState s' hfold
      refine ⟨?_, ?_, ?_⟩
      · rw [← hu, hurl]
        rfl
      · rw [← hc, hch]
        simp [initialParseState]
      · rw [← hr, hrp]
        cases hlast : lastP2pValue parts <;> simp [initialParseState]

/-- A concrete decode function for evaluating parseMultiaddr on closed
inputs (the real multibase/multihash decoding is external). -/
def demoDecode : String → Bytes := fun s => [s.length]

/-- A concrete peer-id reading for evaluating parseMultiaddr on closed
inputs (the real peer-id parsing is external). -/
def demoPeerRead : String → String := fun s => s

/-- An address with two host components followed by a port: every component
is in the recognized set, there is no certhash and no quic/webtransport
marker at all, and udp appears exactly once. -/
def duplicateHostParts : List MaComponent :=
  [(MaProto.ip4, some "1.2.3.4"), (MaProto.ip4, some "5.6.7.8"),
    (MaProto.udp, some "4001")]

/-- Counterexample to C7 as stated: on an address whose components are all
recognized, whose udp component appears exactly once, and which contains no
certhash and no quic/webtransport marker whatsoever, the claim says parsing
returns a URL, yet parseMultiaddr throws (the code also rejects a host
component once a host or port has already been seen). -/
theorem parseMultiaddr_claim_counterexample :
    (∀ c ∈ duplicateHostParts, isRecognized c.1 = true) ∧
    (∀ c ∈ duplicateHostParts,
      isTransportMarker c.1 = false ∧ isCerthashComp c.1 = false) ∧
    (duplicateHostParts.filter fun c => isUdpComp c.1).length = 1 ∧
    (parseMultiaddr demoDecode demoPeerRead duplicateHostParts).isOk = false := by
  refine ⟨by decide, by decide, by decide, ?_⟩
  rfl

/-- C7 as amended: parseMultiaddr throws exactly when some component is
outside the recognized set, some host component appears after a host or a
port component, some udp component appears after a udp component, or some
quic/webtransport marker or certhash component appears before both a host
and a udp component; otherwise it returns the https URL derived from the
host and port values, the decoded fingerprint digests in order of
appearance, and the peer identity of the last p2p component when present. -/
theorem parseMultiaddr_characterization (dec : String → Bytes)
    (pid : String → String) (parts : List MaComponent) :
    ((parseMultiaddr dec pid parts).isOk = true ↔ GoodMultiaddr parts) ∧
    (∀ url chs rp, parseMultiaddr dec pid parts = Except.ok (url, chs, rp) →
      url = "https://" ++ specUrl parts ∧
      chs = (certhashValues parts).map dec ∧
      rp = (lastP2pValue parts).map pid) :=
  parseMultiaddr_ok_iff dec pid parts

/-- Witness for parseMultiaddr_characterization: the repository test address
shape ip4/udp/quic/webtransport/certhash/p2p parses to the expected url,
certhashes and peer. -/
theorem parseMultiaddr_characterization_witness :
    (parseMultiaddr demoDecode demoPeerRead
        [(MaProto.ip4, some "127.0.0.1"), (MaProto.udp, some "9091"),
          (MaProto.quic, none), (MaProto.webtransport, none),
          (MaProto.certhash, some "abcd"), (MaProto.p2p, some "12D3Koo")] =
      Except.ok ("https://127.0.0.1:9091", [[4]], some "12D3Koo")) ∧
    ("https://127.0.0.1:9091" : String) =
      "https://" ++ specUrl
        [(MaProto.ip4, some "127.0.0.1"), (MaProto.udp, some "9091"),
          (MaProto.quic, none), (MaProto.webtransport, none),
          (MaProto.certhash, some "abcd"), (MaProto.p2p, some "12D3Koo")] ∧
    ([[4]] : List Bytes) =
      (certhashValues
        [(MaProto.ip4, some "127.0.0.1"), (MaProto.udp, some "9091"),
          (MaProto.quic, none), (MaProto.webtransport, none),
          (MaProto.certhash, some "abcd"), (MaProto.p2p, some "12D3Koo")]).map demoDecode ∧
    (some "12D3Koo" : Option String) =
      (lastP2pValue
        [(MaProto.ip4, some "127.0.0.1"), (MaProto.udp, some "9091"),
          (MaProto.quic, none), (MaProto.webtransport, none),
          (MaProto.certhash, some "abcd"), (MaProto.p2p, some "12D3Koo")]).map demoPeerRead := by
  have h := (parseMultiaddr_characterization demoDecode demoPeerRead
    [(MaProto.ip4, some "127.0.0.1"), (MaProto.udp, some "9091"),
      (MaProto.quic, none), (MaProto.webtransport, none),
      (MaProto.certhash, some "abcd"), (MaProto.p2p, some "12D3Koo")]).2
    "https://127.0.0.1:9091" [[4]] (some "12D3Koo") (by rfl)
  exact ⟨by rfl, h.1, h.2.1, h.2.2⟩

end WebTransportCore
